import Mathlib

/-!
Verification of the ml-dash seller dashboard: a shallow embedding of the
OAuth token holder, the frontend caching service and interceptor, the
backend pagination/batching loops, the backend items cache, and the
route-boundary error mapping, together with theorems settling the stated
properties of each.

Conventions of the embedding:
* JavaScript millisecond timestamps and durations are `Int`.
* `localStorage` and the backend `Map` are association lists
  `List (String × α)` with replace-on-set semantics.
* Fallible or effectful operations return their observable outcome
  explicitly (updated store, list of requests issued, response emitted).
-/

namespace MlDash

/-! ## Generic association-list map (models `localStorage` and JS `Map`) -/

def mapGet {α : Type} : List (String × α) → String → Option α
  | [], _ => none
  | kv :: t, k => if kv.1 = k then some kv.2 else mapGet t k

def mapErase {α : Type} : List (String × α) → String → List (String × α)
  | [], _ => []
  | kv :: t, k => if kv.1 = k then mapErase t k else kv :: mapErase t k

def mapSet {α : Type} (m : List (String × α)) (k : String) (v : α) : List (String × α) :=
  mapErase m k ++ [(k, v)]

theorem mapGet_erase_self {α : Type} (m : List (String × α)) (k : String) :
    mapGet (mapErase m k) k = none := by
  induction m with
  | nil => rfl
  | cons kv t ih =>
    by_cases h : kv.1 = k
    · simp [mapErase, h, ih]
    · simp [mapErase, mapGet, h, ih]

theorem mapGet_erase_ne {α : Type} (m : List (String × α)) (k k' : String)
    (h : k' ≠ k) : mapGet (mapErase m k) k' = mapGet m k' := by
  induction m with
  | nil => rfl
  | cons kv t ih =>
    by_cases hk : kv.1 = k
    · have hne : ¬ k = k' := fun hc => h hc.symm
      simp [mapErase, mapGet, hk, hne, ih]
    · by_cases he : kv.1 = k'
      · simp [mapErase, mapGet, hk, he, h]
      · simp [mapErase, mapGet, hk, he, ih]

theorem mapGet_append {α : Type} (m₁ m₂ : List (String × α)) (k : String) :
    mapGet (m₁ ++ m₂) k = ((mapGet m₁ k).or (mapGet m₂ k)) := by
  induction m₁ with
  | nil => simp [mapGet]
  | cons kv t ih =>
    by_cases he : kv.1 = k
    · simp [mapGet, he]
    · simp [mapGet, he, ih]

theorem mapGet_set_self {α : Type} (m : List (String × α)) (k : String) (v : α) :
    mapGet (mapSet m k v) k = some v := by
  unfold mapSet
  rw [mapGet_append, mapGet_erase_self]
  simp [mapGet]

theorem mapGet_set_ne {α : Type} (m : List (String × α)) (k k' : String) (v : α)
    (h : k' ≠ k) : mapGet (mapSet m k v) k' = mapGet m k' := by
  unfold mapSet
  rw [mapGet_append, mapGet_erase_ne m k k' h]
  cases hg : mapGet m k' with
  | some w => rfl
  | none =>
    have hne : ¬ k = k' := fun hc => h hc.symm
    simp [mapGet, hne]

/-! ## JS values (opaque universe for `any`-typed bodies) with JS truthiness -/

inductive JsValue where
  | null : JsValue
  | boolean (b : Bool) : JsValue
  | number (n : Int) : JsValue
  | string (s : String) : JsValue
deriving DecidableEq

def truthy : JsValue → Bool
  | .null => false
  | .boolean b => b
  | .number n => !(n == 0)
  | .string s => !(s == "")

/-! ## Token holder (`MercadoLibreAuth`, backend/src/auth/oauth.ts) -/

structure TokenData where
  access_token : String
  refresh_token : String
  expires_in : Int
  created_at : Int
deriving DecidableEq

/-- `isTokenExpired`: true when no token is loaded, or when
`now >= created_at + expires_in * 1000 - 5 * 60 * 1000`. -/
def isTokenExpired (tokenData : Option TokenData) (now : Int) : Bool :=
  match tokenData with
  | none => true
  | some td =>
    let expirationTime := td.created_at + td.expires_in * 1000
    let fiveMinutes : Int := 5 * 60 * 1000
    decide (expirationTime - fiveMinutes ≤ now)

/-- `getToken` on a loaded token state: refreshes (first component `true`)
exactly when `isTokenExpired` holds, in which case the refreshed token
data becomes current and its access token is returned; otherwise the
stored access token is returned unchanged. `refreshed` stands for the
token data that `refreshAccessToken` would install. -/
def getToken (td : TokenData) (now : Int) (refreshed : TokenData) : Bool × String :=
  if isTokenExpired (some td) now then (true, refreshed.access_token)
  else (false, td.access_token)

theorem getToken_eq (td : TokenData) (now : Int) (refreshed : TokenData) :
    getToken td now refreshed =
      if td.created_at + td.expires_in * 1000 - 5 * 60 * 1000 ≤ now
      then (true, refreshed.access_token) else (false, td.access_token) := by
  simp only [getToken, isTokenExpired, decide_eq_true_eq]

/-! ## Authorization URL (`MercadoLibreAuth.getAuthorizationUrl`) -/

def hexDigitChar (n : Nat) : Char :=
  if n < 10 then Char.ofNat (48 + n) else Char.ofNat (55 + n)

/-- UTF-8 byte sequence of a Unicode code point. -/
def utf8Bytes (n : Nat) : List Nat :=
  if n < 128 then [n]
  else if n < 2048 then [192 + n / 64, 128 + n % 64]
  else if n < 65536 then [224 + n / 4096, 128 + (n / 64) % 64, 128 + n % 64]
  else [240 + n / 262144, 128 + (n / 4096) % 64, 128 + (n / 64) % 64, 128 + n % 64]

def percentEncodeByte (b : Nat) : String :=
  String.mk [Char.ofNat 37, hexDigitChar (b / 16), hexDigitChar (b % 16)]

/-- Characters `encodeURIComponent` leaves unescaped:
alphanumerics and `- _ . ! ~ * ( )` and the apostrophe (code 39). -/
def encodeURIComponentKeeps (c : Char) : Bool :=
  c.isAlphanum || "-_.!~*()".toList.contains c || c.toNat == 39

def encodeURIComponentChar (c : Char) : String :=
  if encodeURIComponentKeeps c then String.singleton c
  else String.join ((utf8Bytes c.toNat).map percentEncodeByte)

/-- JavaScript `encodeURIComponent`. -/
def encodeURIComponent (s : String) : String :=
  String.join (s.toList.map encodeURIComponentChar)

/-- The scope list requested by `getAuthorizationUrl`. -/
def oauthScopes : List String :=
  ["offline_access", "read", "write", "items.read", "items.write",
   "orders.read", "shipments.read"]

/-- `getAuthorizationUrl`: template string built from the configured
app id and redirect uri. -/
def getAuthorizationUrl (appId redirectUri : String) : String :=
  "https://auth.mercadolibre.com.mx/authorization?response_type=code&client_id=" ++ appId
    ++ "&redirect_uri=" ++ encodeURIComponent redirectUri
    ++ "&scope=" ++ encodeURIComponent (String.intercalate " " oauthScopes)

/-- C1: for every loaded token state, `getToken` triggers a refresh when and
only when the current time is at or past `created_at + expires_in` seconds
minus the 5-minute margin; below the margin it returns the stored access
token with no refresh attempt. -/
theorem getToken_refreshes_iff_expired (td : TokenData) (now : Int) (refreshed : TokenData) :
    ((getToken td now refreshed).1 = true ↔
      td.created_at + td.expires_in * 1000 - 5 * 60 * 1000 ≤ now)
    ∧ (now < td.created_at + td.expires_in * 1000 - 5 * 60 * 1000 →
      getToken td now refreshed = (false, td.access_token)) := by
  rw [getToken_eq]
  by_cases hc : td.created_at + td.expires_in * 1000 - 5 * 60 * 1000 ≤ now
  · rw [if_pos hc]
    exact ⟨⟨fun _ => hc, fun _ => rfl⟩, fun h => absurd hc (not_le.mpr h)⟩
  · rw [if_neg hc]
    exact ⟨⟨fun h1 => absurd h1 (by simp), fun hle => (hc hle).elim⟩, fun _ => rfl⟩

/-- Witness for C1: a token created at time 0 with a 21600-second lifetime is
not within the margin at time 0, so `getToken` returns it without refreshing. -/
theorem getToken_refreshes_iff_expired_witness :
    ((0 : Int) < 0 + 21600 * 1000 - 5 * 60 * 1000)
    ∧ getToken ⟨"tokA", "ref", 21600, 0⟩ 0 ⟨"tokB", "ref2", 21600, 0⟩ = (false, "tokA") :=
  ⟨by decide,
   (getToken_refreshes_iff_expired ⟨"tokA", "ref", 21600, 0⟩ 0 ⟨"tokB", "ref2", 21600, 0⟩).2
     (by decide)⟩

set_option maxRecDepth 8192

/-- C7: `getAuthorizationUrl` always builds the authorization URL from the
configured client id, the URL-encoded redirect uri, and a scope parameter
that is exactly the seven scopes space-joined and URL-encoded. -/
theorem getAuthorizationUrl_spec (appId redirectUri : String) :
    getAuthorizationUrl appId redirectUri =
      "https://auth.mercadolibre.com.mx/authorization?response_type=code&client_id=" ++ appId
        ++ "&redirect_uri=" ++ encodeURIComponent redirectUri
        ++ "&scope=" ++ encodeURIComponent (String.intercalate " " oauthScopes)
    ∧ encodeURIComponent (String.intercalate " " oauthScopes) =
      "offline_access%20read%20write%20items.read%20items.write%20orders.read%20shipments.read"
    ∧ oauthScopes = ["offline_access", "read", "write", "items.read", "items.write",
        "orders.read", "shipments.read"] :=
  ⟨rfl, by decide, rfl⟩

/-! ## Frontend `CachingService` (src/app/services/caching.service.ts)

`localStorage` is modelled as an association list from full storage key to
the parsed `CacheEntry` it holds.  The storage prefix constant
`CACHE_PREFIX` of the source is named `cachePrefixV1` here. -/

structure CacheEntry where
  data : JsValue
  expiry : Int
  timestamp : Int
deriving DecidableEq

abbrev Store := List (String × CacheEntry)

def cachePrefixV1 : String := "ml_cache_v1_"

def DEFAULT_TTL : Nat := 300

/-- `cs` begins with `pat`. -/
def beginsWith : List Char → List Char → Bool
  | [], _ => true
  | _ :: _, [] => false
  | p :: ps, c :: cs => p == c && beginsWith ps cs

/-- `pat` occurs as a contiguous substring of the second list. -/
def containsSub (pat : List Char) : List Char → Bool
  | [] => beginsWith pat []
  | c :: cs => beginsWith pat (c :: cs) || containsSub pat cs

/-- ASCII lower-casing, the behaviour of `toLowerCase` on the URL and
pattern alphabet in play. -/
def lowerChar (c : Char) : Char :=
  if 65 ≤ c.toNat ∧ c.toNat ≤ 90 then Char.ofNat (c.toNat + 32) else c

def lowerStr (s : String) : List Char := s.toList.map lowerChar

/-- The six case-insensitive blacklist regexes, each of which just tests
for a literal substring. -/
def blacklistPatterns : List String :=
  ["/auth", "/login", "/logout", "/session", "/verify", "/debug"]

def isBlacklisted (url : String) : Bool :=
  blacklistPatterns.any (fun p => containsSub p.toList (lowerStr url))

/-- Per-route TTL table (`CACHE_CONFIGS`), seconds. -/
def cacheConfigs : List (String × Nat) :=
  [("/orders", 180), ("/items", 300), ("/categories", 3600),
   ("/gallery", 600), ("/chart", 600), ("/publications", 240)]

def getTTL (url : String) : Nat :=
  match cacheConfigs.find? (fun c => containsSub c.1.toList (lowerStr url)) with
  | some c => c.2
  | none => DEFAULT_TTL

def getCacheKey (key : String) : String := cachePrefixV1 ++ key

/-- Body of `CachingService.get` after the blacklist check and lookup. -/
def cacheGetEntry (entry? : Option CacheEntry) (s : Store) (now : Int) (key : String) :
    Option JsValue × Store :=
  match entry? with
  | none => (none, s)
  | some entry =>
    if entry.expiry < now then (none, mapErase s (getCacheKey key))
    else (some entry.data, s)

/-- `CachingService.get`: returns the decoded value (or `none`) together
with the storage state after the call (an expired entry is removed). -/
def cacheGet (s : Store) (now : Int) (key : String) : Option JsValue × Store :=
  if isBlacklisted key then (none, s)
  else cacheGetEntry (mapGet s (getCacheKey key)) s now key

/-- `CachingService.set`.  A `ttlSeconds` of `some 0` falls back to the
per-route TTL, mirroring the `ttl_seconds || this.getTTL(key)` fallback
on falsy values. -/
def cacheSet (s : Store) (now : Int) (key : String) (data : JsValue)
    (ttlSeconds : Option Nat) : Store :=
  if isBlacklisted key then s
  else
    let ttl := match ttlSeconds with
      | some t => if t = 0 then getTTL key else t
      | none => getTTL key
    mapSet s (getCacheKey key) ⟨data, now + (ttl : Int) * 1000, now⟩

/-- `CachingService.cleanExpiredEntries`: one full scan removing every
stored entry (key under the cache namespace) whose expiry is past. -/
def cleanExpiredEntries (s : Store) (now : Int) : Store :=
  s.filter (fun kv => !(cachePrefixV1.isPrefixOf kv.1 && decide (kv.2.expiry < now)))

/-- C2: `get` never returns an entry after its TTL has elapsed; an expired
entry is evicted on read (for any key the service itself can store, i.e.
any non-blacklisted key) and `none` is returned; and the constructor scan
`cleanExpiredEntries` removes exactly the already-expired stored entries. -/
theorem cacheGet_ttl_semantics :
    (∀ (s : Store) (now : Int) (key : String) (v : JsValue),
      (cacheGet s now key).1 = some v →
      ∃ e : CacheEntry, mapGet s (getCacheKey key) = some e ∧ e.data = v ∧ now ≤ e.expiry)
    ∧ (∀ (s : Store) (now : Int) (key : String) (e : CacheEntry),
      isBlacklisted key = false →
      mapGet s (getCacheKey key) = some e → e.expiry < now →
      cacheGet s now key = (none, mapErase s (getCacheKey key)) ∧
      mapGet (mapErase s (getCacheKey key)) (getCacheKey key) = none)
    ∧ (∀ (s : Store) (now : Int) (kv : String × CacheEntry),
      kv ∈ cleanExpiredEntries s now →
      cachePrefixV1.isPrefixOf kv.1 = true → now ≤ kv.2.expiry)
    ∧ (∀ (s : Store) (now : Int) (kv : String × CacheEntry),
      kv ∈ s → (cachePrefixV1.isPrefixOf kv.1 = false ∨ now ≤ kv.2.expiry) →
      kv ∈ cleanExpiredEntries s now) := by
  refine ⟨?_, ?_, ?_, ?_⟩
  · intro s now key v hv
    unfold cacheGet at hv
    by_cases hb : isBlacklisted key
    · rw [if_pos hb] at hv; simp at hv
    · rw [if_neg hb] at hv
      cases hm : mapGet s (getCacheKey key) with
      | none => rw [hm] at hv; simp [cacheGetEntry] at hv
      | some e =>
        rw [hm] at hv
        by_cases hex : e.expiry < now
        · rw [cacheGetEntry, if_pos hex] at hv; simp at hv
        · rw [cacheGetEntry, if_neg hex] at hv
          simp only [Option.some.injEq] at hv
          exact ⟨e, rfl, hv, not_lt.mp hex⟩
  · intro s now key e hb hm hex
    constructor
    · unfold cacheGet
      rw [if_neg (by rw [hb]; exact fun hc => Bool.noConfusion hc), hm,
        cacheGetEntry, if_pos hex]
    · exact mapGet_erase_self s (getCacheKey key)
  · intro s now kv hmem hpre
    rw [cleanExpiredEntries, List.mem_filter] at hmem
    have h2 := hmem.2
    rw [hpre] at h2
    simp only [Bool.true_and, Bool.not_eq_true', decide_eq_false_iff_not, not_lt] at h2
    exact h2
  · intro s now kv hmem hkeep
    rw [cleanExpiredEntries, List.mem_filter]
    refine ⟨hmem, ?_⟩
    cases hkeep with
    | inl h => simp [h]
    | inr h => simp [not_lt.mpr h]

/-- Witness for C2: in a store holding one entry under key `/api/items`
that expired at time 100, a read at time 200 returns `none` and leaves the
store empty. -/
theorem cacheGet_ttl_semantics_witness :
    isBlacklisted "/api/items" = false
    ∧ mapGet [("ml_cache_v1_/api/items", (⟨JsValue.string "x", 100, 0⟩ : CacheEntry))]
        (getCacheKey "/api/items") = some ⟨JsValue.string "x", 100, 0⟩
    ∧ (100 : Int) < 200
    ∧ cacheGet [("ml_cache_v1_/api/items", (⟨JsValue.string "x", 100, 0⟩ : CacheEntry))]
        200 "/api/items" = (none, [])
    ∧ mapGet (mapErase [("ml_cache_v1_/api/items", (⟨JsValue.string "x", 100, 0⟩ : CacheEntry))]
        (getCacheKey "/api/items")) (getCacheKey "/api/items") = none := by
  have h := cacheGet_ttl_semantics.2.1
    [("ml_cache_v1_/api/items", (⟨JsValue.string "x", 100, 0⟩ : CacheEntry))]
    200 "/api/items" ⟨JsValue.string "x", 100, 0⟩ (by decide) (by decide) (by decide)
  exact ⟨by decide, by decide, by decide, by exact h.1.trans (by decide), h.2⟩

/-- C3: a URL matching a blacklist pattern is never cached: `set` stores
nothing (for every prior store state) and `get` answers `none` leaving the
store untouched, so such a request is never answered from the cache. -/
theorem blacklisted_never_cached :
    ∀ (url : String), isBlacklisted url = true →
      ∀ (s : Store) (now : Int) (data : JsValue) (ttlSeconds : Option Nat),
        cacheSet s now url data ttlSeconds = s ∧ cacheGet s now url = (none, s) := by
  intro url hb s now data ttlSeconds
  exact ⟨by unfold cacheSet; rw [if_pos hb], by unfold cacheGet; rw [if_pos hb]⟩

/-- Witness for C3: `/api/auth/login` is blacklisted; even with a fresh
matching entry planted in the store, `set` is a no-op and `get` misses. -/
theorem blacklisted_never_cached_witness :
    isBlacklisted "/api/auth/login" = true
    ∧ cacheSet [("ml_cache_v1_/api/auth/login", (⟨JsValue.string "s", 99999, 0⟩ : CacheEntry))]
        10 "/api/auth/login" (JsValue.string "body") none
      = [("ml_cache_v1_/api/auth/login", (⟨JsValue.string "s", 99999, 0⟩ : CacheEntry))]
    ∧ cacheGet [("ml_cache_v1_/api/auth/login", (⟨JsValue.string "s", 99999, 0⟩ : CacheEntry))]
        10 "/api/auth/login"
      = (none, [("ml_cache_v1_/api/auth/login", (⟨JsValue.string "s", 99999, 0⟩ : CacheEntry))]) :=
  ⟨by decide,
   (blacklisted_never_cached "/api/auth/login" (by decide)
     [("ml_cache_v1_/api/auth/login", (⟨JsValue.string "s", 99999, 0⟩ : CacheEntry))]
     10 (JsValue.string "body") none).1,
   (blacklisted_never_cached "/api/auth/login" (by decide)
     [("ml_cache_v1_/api/auth/login", (⟨JsValue.string "s", 99999, 0⟩ : CacheEntry))]
     10 (JsValue.string "body") none).2⟩

/-! ## `CachingInterceptor` (src/app/interceptors/caching.interceptor.ts) -/

structure HttpReq where
  method : String
  url : String
  urlWithParams : String
deriving DecidableEq

/-- Downstream HTTP events: a full `HttpResponse` with status and body, or
any other event (`Sent`, progress, ...). -/
inductive HttpEventM where
  | response (status : Nat) (body : JsValue)
  | progress
deriving DecidableEq

/-- The `tap` callback: cache the body of an `HttpResponse` with status
200, leave the store alone on any other event. -/
def tapStep (now : Int) (key : String) (st : Store) (ev : HttpEventM) : Store :=
  match ev with
  | .response status body => if status = 200 then cacheSet st now key body none else st
  | .progress => st

def storeAfterEvents (st : Store) (now : Int) (key : String) (events : List HttpEventM) : Store :=
  events.foldl (tapStep now key) st

/-- The network (cache-miss) path: forward the events and cache every
200 `HttpResponse` among them. -/
def interceptNet (st : Store) (now : Int) (key : String)
    (networkEvents : List HttpEventM) : List HttpEventM × Store :=
  (networkEvents, storeAfterEvents st now key networkEvents)

/-- The `if (cachedResponse)` branch on the value `CachingService.get`
returned: only a truthy value is replayed. -/
def interceptHit (cached : Option JsValue) (st : Store) (now : Int) (key : String)
    (networkEvents : List HttpEventM) : List HttpEventM × Store :=
  match cached with
  | some v =>
    if truthy v then ([.response 200 v], st) else interceptNet st now key networkEvents
  | none => interceptNet st now key networkEvents

/-- `CachingInterceptor.intercept`, given the events the network handler
would emit: returns the events the caller observes and the final store. -/
def intercept (req : HttpReq) (s : Store) (now : Int) (networkEvents : List HttpEventM) :
    List HttpEventM × Store :=
  if req.method != "GET" then (networkEvents, s)
  else
    interceptHit (cacheGet s now req.urlWithParams).1 (cacheGet s now req.urlWithParams).2
      now req.urlWithParams networkEvents

/-- C8 counterexample: an unexpired cached entry whose body is the empty
string is a cache hit for `CachingService.get`, yet the interceptor does
not replay it: the request goes to the network. -/
theorem intercept_falsy_hit_not_replayed :
    (cacheGet [("ml_cache_v1_/api/items?page=1",
        (⟨JsValue.string "", 1000, 0⟩ : CacheEntry))] 500 "/api/items?page=1").1
      = some (JsValue.string "")
    ∧ intercept ⟨"GET", "/api/items", "/api/items?page=1"⟩
        [("ml_cache_v1_/api/items?page=1", (⟨JsValue.string "", 1000, 0⟩ : CacheEntry))]
        500 [HttpEventM.progress]
      = ([HttpEventM.progress],
         [("ml_cache_v1_/api/items?page=1", (⟨JsValue.string "", 1000, 0⟩ : CacheEntry))])
    ∧ ([HttpEventM.progress] : List HttpEventM)
        ≠ [HttpEventM.response 200 (JsValue.string "")] := by
  exact ⟨by decide, by decide, by decide⟩

/-- C8 (amended): the interceptor bypasses the cache entirely for non-GET
requests; a GET whose cached value is a truthy body is replayed as a
synthetic 200 response with that body; a GET with a cache miss or a falsy
cached body goes to the network, and only `HttpResponse` events with
status 200 are stored. -/
theorem intercept_spec :
    ∀ (req : HttpReq) (s : Store) (now : Int) (events : List HttpEventM),
      (req.method ≠ "GET" → intercept req s now events = (events, s))
      ∧ (req.method = "GET" →
        ∀ v, (cacheGet s now req.urlWithParams).1 = some v → truthy v = true →
          intercept req s now events
            = ([HttpEventM.response 200 v], (cacheGet s now req.urlWithParams).2))
      ∧ (req.method = "GET" →
        ((cacheGet s now req.urlWithParams).1 = none ∨
          (∃ v, (cacheGet s now req.urlWithParams).1 = some v ∧ truthy v = false)) →
          intercept req s now events
            = (events,
               storeAfterEvents (cacheGet s now req.urlWithParams).2 now
                 req.urlWithParams events))
      ∧ (∀ (key : String) (st : Store),
          (∀ ev ∈ events, ∀ body, ev ≠ HttpEventM.response 200 body) →
          storeAfterEvents st now key events = st) := by
  intro req s now events
  refine ⟨?_, ?_, ?_, ?_⟩
  · intro h
    unfold intercept
    rw [if_pos (by simp [bne_iff_ne, h])]
  · intro h v hv htr
    unfold intercept
    rw [if_neg (by simp [h]), hv]
    simp [interceptHit, htr]
  · intro h hmiss
    unfold intercept
    rw [if_neg (by simp [h])]
    cases hmiss with
    | inl hm => rw [hm]; rfl
    | inr hm =>
      obtain ⟨v, hv, hf⟩ := hm
      rw [hv]
      simp [interceptHit, hf, interceptNet]
  · intro key st hnone
    induction events generalizing st with
    | nil => rfl
    | cons ev evs ih =>
      have hev : tapStep now key st ev = st := by
        cases ev with
        | response status body =>
          have hs : status ≠ 200 := by
            intro hc
            exact hnone (HttpEventM.response status body) (List.mem_cons_self _ _) body
              (by rw [hc])
          simp [tapStep, hs]
        | progress => rfl
      show List.foldl (tapStep now key) st (ev :: evs) = st
      rw [List.foldl_cons, hev]
      exact ih st (fun ev2 hm body => hnone ev2 (List.mem_cons_of_mem _ hm) body)

/-- Witness for C8 (amended): a GET with a truthy cached body is replayed
from the cache as a 200 response. -/
theorem intercept_spec_witness :
    (cacheGet [("ml_cache_v1_/api/orders", (⟨JsValue.string "data", 1000, 0⟩ : CacheEntry))]
        500 "/api/orders").1 = some (JsValue.string "data")
    ∧ truthy (JsValue.string "data") = true
    ∧ intercept ⟨"GET", "/api/orders", "/api/orders"⟩
        [("ml_cache_v1_/api/orders", (⟨JsValue.string "data", 1000, 0⟩ : CacheEntry))]
        500 []
      = ([HttpEventM.response 200 (JsValue.string "data")],
         [("ml_cache_v1_/api/orders", (⟨JsValue.string "data", 1000, 0⟩ : CacheEntry))]) := by
  refine ⟨by decide, by decide, ?_⟩
  have h := (intercept_spec ⟨"GET", "/api/orders", "/api/orders"⟩
    [("ml_cache_v1_/api/orders", (⟨JsValue.string "data", 1000, 0⟩ : CacheEntry))]
    500 []).2.1 rfl (JsValue.string "data") (by decide) (by decide)
  exact h.trans (by decide)

/-! ## Backend pagination loops (backend/src/routes/orders.ts, items.ts)

Both `while` loops are embedded fuel-indexed: `none` means the fuel ran
out before the loop exited, so a termination statement is `isSome` for an
explicit fuel bound.  The loops record the requests they issue. -/

structure OrdersPaging where
  limit : Nat
  total : Nat
deriving DecidableEq

structure OrdersResp where
  resultsCount : Nat
  paging : Option OrdersPaging
deriving DecidableEq

/-- `hasMore = paging && (offset + paging.limit < paging.total)`. -/
def ordersHasMore (r : OrdersResp) (offset : Nat) : Bool :=
  match r.paging with
  | some p => decide (offset + p.limit < p.total)
  | none => false

/-- `offset += paging?.limit || 50` (the JS `||` falls back on 0). -/
def ordersInc (r : OrdersResp) : Nat :=
  match r.paging with
  | some p => if p.limit = 0 then 50 else p.limit
  | none => 50

/-- The GET `/api/orders` pagination loop: issues a request at the current
offset, then continues while `hasMore` holds and the updated offset has not
passed the 10,000 safety limit.  Returns the offsets requested. -/
def ordersLoopGo (resp : Nat → OrdersResp) (offset : Nat) : Nat → Option (List Nat)
  | 0 => none
  | fuel + 1 =>
    if ordersHasMore (resp offset) offset
        ∧ offset + ordersInc (resp offset) ≤ 10000 then
      match ordersLoopGo resp (offset + ordersInc (resp offset)) fuel with
      | none => none
      | some offs => some (offset :: offs)
    else some [offset]

theorem ordersInc_pos (r : OrdersResp) : 1 ≤ ordersInc r := by
  unfold ordersInc
  cases r.paging with
  | none => decide
  | some p =>
    by_cases h : p.limit = 0
    · simp [h]
    · simp [h]; omega

theorem ordersLoopGo_isSome (resp : Nat → OrdersResp) :
    ∀ (fuel offset : Nat), offset ≤ 10000 → 10002 - offset ≤ fuel →
      (ordersLoopGo resp offset fuel).isSome = true := by
  intro fuel
  induction fuel with
  | zero => intro offset h1 h2; omega
  | succ n ih =>
    intro offset h1 h2
    unfold ordersLoopGo
    by_cases hg : ordersHasMore (resp offset) offset
        ∧ offset + ordersInc (resp offset) ≤ 10000
    · rw [if_pos hg]
      have hinc := ordersInc_pos (resp offset)
      have hrec := ih (offset + ordersInc (resp offset)) hg.2 (by omega)
      cases hr : ordersLoopGo resp (offset + ordersInc (resp offset)) n with
      | none => rw [hr] at hrec; simp at hrec
      | some offs => simp
    · rw [if_neg hg]; rfl

theorem ordersLoopGo_offsets_le (resp : Nat → OrdersResp) :
    ∀ (fuel offset : Nat) (offs : List Nat), offset ≤ 10000 →
      ordersLoopGo resp offset fuel = some offs → ∀ o ∈ offs, o ≤ 10000 := by
  intro fuel
  induction fuel with
  | zero => intro offset offs h1 h2; simp [ordersLoopGo] at h2
  | succ n ih =>
    intro offset offs h1 h2
    unfold ordersLoopGo at h2
    by_cases hg : ordersHasMore (resp offset) offset
        ∧ offset + ordersInc (resp offset) ≤ 10000
    · rw [if_pos hg] at h2
      cases hr : ordersLoopGo resp (offset + ordersInc (resp offset)) n with
      | none => rw [hr] at h2; simp at h2
      | some tail =>
        rw [hr] at h2
        simp only [Option.some.injEq] at h2
        intro o hmem
        rw [← h2] at hmem
        cases hmem with
        | head => exact h1
        | tail _ hm => exact ih (offset + ordersInc (resp offset)) tail hg.2 hr o hm
    · rw [if_neg hg] at h2
      simp only [Option.some.injEq] at h2
      intro o hmem
      rw [← h2] at hmem
      simp at hmem
      rw [hmem]; exact h1

theorem ordersLoopGo_stops (resp : Nat → OrdersResp) (offset fuel : Nat)
    (h : ordersHasMore (resp offset) offset = false) :
    ordersLoopGo resp offset (fuel + 1) = some [offset] := by
  unfold ordersLoopGo
  rw [if_neg (fun hc => by rw [h] at hc; exact Bool.noConfusion hc.1)]

/-- An upstream page of the items search (ids plus advertised total). -/
structure ItemsSearchResp where
  results : List String
  total : Nat
deriving DecidableEq

/-- The items search/sort fetch loop: request ids at the current offset
with `limit = 100`, accumulate them, stop when a batch is short or the
accumulated ids reach the total advertised by the first page.  Requests
are `(offset, limit)` pairs. -/
def itemsSearchGo (resp : Nat → ItemsSearchResp) (total : Nat) :
    Nat → List String → Nat → Option (List (Nat × Nat) × List String)
  | _, _, 0 => none
  | offset, accIds, fuel + 1 =>
    if (resp offset).results.length < 100
        ∨ total ≤ (accIds ++ (resp offset).results).length then
      some ([(offset, 100)], accIds ++ (resp offset).results)
    else
      match itemsSearchGo resp total (offset + 100) (accIds ++ (resp offset).results) fuel with
      | none => none
      | some (reqs, finalIds) => some ((offset, 100) :: reqs, finalIds)

/-- The whole search-mode fetch: `totalItems` is taken from the first
batch response. -/
def itemsSearchLoop (resp : Nat → ItemsSearchResp) (fuel : Nat) :
    Option (List (Nat × Nat) × List String) :=
  itemsSearchGo resp (resp 0).total 0 [] fuel

theorem itemsSearchGo_isSome (resp : Nat → ItemsSearchResp) (total : Nat) :
    ∀ (fuel offset : Nat) (accIds : List String),
      1 ≤ fuel → total + 1 ≤ accIds.length + fuel →
      (itemsSearchGo resp total offset accIds fuel).isSome = true := by
  intro fuel
  induction fuel with
  | zero => intro offset accIds h0 h; omega
  | succ n ih =>
    intro offset accIds h0 h
    unfold itemsSearchGo
    by_cases hg : (resp offset).results.length < 100
        ∨ total ≤ (accIds ++ (resp offset).results).length
    · rw [if_pos hg]; rfl
    · rw [if_neg hg]
      push_neg at hg
      have hlen : (accIds ++ (resp offset).results).length
          = accIds.length + (resp offset).results.length := List.length_append _ _
      have hrec := ih (offset + 100) (accIds ++ (resp offset).results) (by omega) (by omega)
      cases hr : itemsSearchGo resp total (offset + 100) (accIds ++ (resp offset).results) n with
      | none => rw [hr] at hrec; simp at hrec
      | some pr => cases pr with | mk reqs finalIds => simp

theorem itemsSearchGo_stops (resp : Nat → ItemsSearchResp) (total offset fuel : Nat)
    (accIds : List String)
    (h : (resp offset).results.length < 100
      ∨ total ≤ (accIds ++ (resp offset).results).length) :
    itemsSearchGo resp total offset accIds (fuel + 1)
      = some ([(offset, 100)], accIds ++ (resp offset).results) := by
  unfold itemsSearchGo
  rw [if_pos h]

theorem itemsSearchGo_continues (resp : Nat → ItemsSearchResp) (total offset fuel : Nat)
    (accIds : List String) (reqs : List (Nat × Nat)) (finalIds : List String)
    (hg : ¬((resp offset).results.length < 100
      ∨ total ≤ (accIds ++ (resp offset).results).length))
    (hrec : itemsSearchGo resp total (offset + 100) (accIds ++ (resp offset).results) fuel
      = some (reqs, finalIds)) :
    itemsSearchGo resp total offset accIds (fuel + 1)
      = some ((offset, 100) :: reqs, finalIds) := by
  unfold itemsSearchGo
  rw [if_neg hg, hrec]

/-- C4 counterexample: with upstream pages of 10,000 ids each and an
advertised total of 25,000, the items search-mode loop issues its second
and third requests after 10,000 records have already been fetched, and
collects 30,000 records: it has no 10,000-record safety cutoff. -/
theorem itemsSearch_no_cutoff_counterexample :
    itemsSearchLoop (fun _ => ⟨List.replicate 10000 "id", 25000⟩) 10
      = some ([(0, 100), (100, 100), (200, 100)],
          ((([] ++ List.replicate 10000 "id") ++ List.replicate 10000 "id")
            ++ List.replicate 10000 "id"))
    ∧ ((([] ++ List.replicate 10000 "id") ++ List.replicate 10000 "id")
        ++ List.replicate 10000 "id").length = 30000
    ∧ 10000 < 30000 := by
  refine ⟨?_, ?_, by omega⟩
  · have h3 : itemsSearchGo (fun _ => ⟨List.replicate 10000 "id", 25000⟩) 25000 200
        (([] ++ List.replicate 10000 "id") ++ List.replicate 10000 "id") 8
        = some ([(200, 100)],
            ((([] ++ List.replicate 10000 "id") ++ List.replicate 10000 "id")
              ++ List.replicate 10000 "id")) := by
      apply itemsSearchGo_stops
      right
      simp only [List.length_append, List.length_replicate, List.length_nil]
      omega
    have h2 : itemsSearchGo (fun _ => ⟨List.replicate 10000 "id", 25000⟩) 25000 100
        ([] ++ List.replicate 10000 "id") 9
        = some ([(100, 100), (200, 100)],
            ((([] ++ List.replicate 10000 "id") ++ List.replicate 10000 "id")
              ++ List.replicate 10000 "id")) := by
      apply itemsSearchGo_continues _ _ _ _ _ _ _ _ h3
      simp only [List.length_append, List.length_replicate, List.length_nil, not_or, not_lt,
        not_le]
      omega
    have h1 : itemsSearchGo (fun _ => ⟨List.replicate 10000 "id", 25000⟩) 25000 0 [] 10
        = some ([(0, 100), (100, 100), (200, 100)],
            ((([] ++ List.replicate 10000 "id") ++ List.replicate 10000 "id")
              ++ List.replicate 10000 "id")) := by
      apply itemsSearchGo_continues _ _ _ _ _ _ _ _ h2
      simp only [List.length_append, List.length_replicate, List.length_nil, not_or, not_lt,
        not_le]
      omega
    exact h1
  · simp only [List.length_append, List.length_replicate, List.length_nil]

/-- C4 (amended): both loops terminate on bounded fuel; the orders loop
never requests an offset above 10,000 and stops as soon as the advertised
paging reports no further records; the items search loop stops as soon as
a batch is short or the accumulated ids reach the advertised total, but
enforces no 10,000-record cutoff of its own (see the counterexample). -/
theorem paginationLoops_spec :
    (∀ resp : Nat → OrdersResp, (ordersLoopGo resp 0 10002).isSome = true)
    ∧ (∀ (resp : Nat → OrdersResp) (fuel : Nat) (offs : List Nat),
        ordersLoopGo resp 0 fuel = some offs → ∀ o ∈ offs, o ≤ 10000)
    ∧ (∀ (resp : Nat → OrdersResp) (offset fuel : Nat),
        ordersHasMore (resp offset) offset = false →
        ordersLoopGo resp offset (fuel + 1) = some [offset])
    ∧ (∀ (resp : Nat → ItemsSearchResp) (fuel : Nat),
        (resp 0).total + 1 ≤ fuel → (itemsSearchLoop resp fuel).isSome = true)
    ∧ (∀ (resp : Nat → ItemsSearchResp) (total offset fuel : Nat) (accIds : List String),
        ((resp offset).results.length < 100
          ∨ total ≤ (accIds ++ (resp offset).results).length) →
        itemsSearchGo resp total offset accIds (fuel + 1)
          = some ([(offset, 100)], accIds ++ (resp offset).results)) :=
  ⟨fun resp => ordersLoopGo_isSome resp 10002 0 (by omega) (by omega),
   fun resp fuel offs h => ordersLoopGo_offsets_le resp fuel 0 offs (by omega) h,
   fun resp offset fuel h => ordersLoopGo_stops resp offset fuel h,
   fun resp fuel hf =>
     itemsSearchGo_isSome resp (resp 0).total fuel 0 [] (by omega) (by simpa using hf),
   fun resp total offset fuel accIds h => itemsSearchGo_stops resp total offset fuel accIds h⟩

/-- Witness for C4: an upstream that advertises no paging makes the orders
loop stop after its single request at offset 0. -/
theorem paginationLoops_spec_witness :
    ordersHasMore ((fun _ => (⟨0, none⟩ : OrdersResp)) 0) 0 = false
    ∧ ordersLoopGo (fun _ => (⟨0, none⟩ : OrdersResp)) 0 1 = some [0] :=
  ⟨rfl, paginationLoops_spec.2.2.1 (fun _ => (⟨0, none⟩ : OrdersResp)) 0 0 rfl⟩

/-! ## Item detail multiget batching (items.ts, `batchSize = 20`) -/

/-- `for (let i = 0; i < itemIds.length; i += batchSize)
batches.push(itemIds.slice(i, i + batchSize))` with `batchSize = 20`. -/
def toBatches (ids : List String) : List (List String) :=
  if h : ids.isEmpty then [] else ids.take 20 :: toBatches (ids.drop 20)
termination_by ids.length
decreasing_by
  simp only [List.length_drop]
  have hne : ids ≠ [] := by
    intro hc; rw [hc] at h; exact h rfl
  have hpos : 0 < ids.length := List.length_pos.mpr hne
  omega

theorem toBatches_aux : ∀ (n : Nat) (ids : List String), ids.length ≤ n →
    (∀ b ∈ toBatches ids, b.length ≤ 20) ∧ (toBatches ids).flatten = ids := by
  intro n
  induction n with
  | zero =>
    intro ids h
    have hnil : ids = [] := List.length_eq_zero.mp (Nat.le_antisymm h (Nat.zero_le _))
    subst hnil
    rw [toBatches]
    simp
  | succ n ih =>
    intro ids h
    rw [toBatches]
    by_cases he : ids.isEmpty
    · rw [dif_pos he]
      have hnil : ids = [] := by
        cases ids with
        | nil => rfl
        | cons a t => simp [List.isEmpty] at he
      simp [hnil]
    · rw [dif_neg he]
      have hne : ids ≠ [] := by
        intro hc; rw [hc] at he; exact he rfl
      have hpos : 0 < ids.length := List.length_pos.mpr hne
      have hih := ih (ids.drop 20) (by simp only [List.length_drop]; omega)
      constructor
      · intro b hb
        cases hb with
        | head => simpa using Nat.min_le_left 20 ids.length
        | tail _ hm => exact hih.1 b hm
      · rw [List.flatten_cons, hih.2]
        exact List.take_append_drop 20 ids

theorem itemsSearchGo_limits (resp : Nat → ItemsSearchResp) (total : Nat) :
    ∀ (fuel offset : Nat) (accIds : List String) (reqs : List (Nat × Nat))
      (ids : List String),
      itemsSearchGo resp total offset accIds fuel = some (reqs, ids) →
      ∀ rq ∈ reqs, rq.2 = 100 := by
  intro fuel
  induction fuel with
  | zero => intro offset accIds reqs ids h; simp [itemsSearchGo] at h
  | succ n ih =>
    intro offset accIds reqs ids h
    unfold itemsSearchGo at h
    by_cases hg : (resp offset).results.length < 100
        ∨ total ≤ (accIds ++ (resp offset).results).length
    · rw [if_pos hg] at h
      simp only [Option.some.injEq, Prod.mk.injEq] at h
      intro rq hm
      rw [← h.1] at hm
      simp at hm
      rw [hm]
    · rw [if_neg hg] at h
      cases hr : itemsSearchGo resp total (offset + 100) (accIds ++ (resp offset).results) n with
      | none => rw [hr] at h; simp at h
      | some pr =>
        cases pr with
        | mk rs fi =>
          rw [hr] at h
          simp only [Option.some.injEq, Prod.mk.injEq] at h
          intro rq hm
          rw [← h.1] at hm
          cases hm with
          | head => rfl
          | tail _ hm2 => exact ih (offset + 100) (accIds ++ (resp offset).results) rs fi hr rq hm2

/-- C6: in search or sort mode the id pages are requested with
`limit = 100` on every request, and the detail (multiget) lookups are
split into batches of at most 20 ids that together cover exactly the
id list, for every list of item ids. -/
theorem items_batching_spec :
    (∀ (resp : Nat → ItemsSearchResp) (total fuel offset : Nat)
        (accIds : List String) (reqs : List (Nat × Nat)) (ids : List String),
      itemsSearchGo resp total offset accIds fuel = some (reqs, ids) →
      ∀ rq ∈ reqs, rq.2 = 100)
    ∧ (∀ ids : List String,
      (∀ b ∈ toBatches ids, b.length ≤ 20) ∧ (toBatches ids).flatten = ids) :=
  ⟨fun resp total fuel offset accIds reqs ids h =>
    itemsSearchGo_limits resp total fuel offset accIds reqs ids h,
   fun ids => toBatches_aux ids.length ids (Nat.le_refl _)⟩

/-- Witness for C6: a single empty batch makes the search loop stop after
one request, and that request carries `limit = 100`. -/
theorem items_batching_spec_witness :
    itemsSearchGo (fun _ => (⟨[], 0⟩ : ItemsSearchResp)) 0 0 [] 1 = some ([(0, 100)], [])
    ∧ ((0, 100) : Nat × Nat).2 = 100 :=
  ⟨by decide,
   items_batching_spec.1 (fun _ => (⟨[], 0⟩ : ItemsSearchResp)) 0 1 0 [] [(0, 100)] []
     (by decide) (0, 100) (by decide)⟩

/-! ## Backend in-memory items cache (items.ts: itemsCache / getCacheKey /
saveToCache / clearItemsCache).  The key builder is `getItemsCacheKey`
here to keep it apart from the frontend `getCacheKey`. -/

structure ItemsCacheEntry where
  data : List JsValue
  timestamp : Int
  sellerId : String
deriving DecidableEq

abbrev ItemsCache := List (String × ItemsCacheEntry)

/-- `${x || 'all'}` on an optional string (falsy empty string included). -/
def orAll (s : Option String) : String :=
  match s with
  | some v => if v = "" then "all" else v
  | none => "all"

def getItemsCacheKey (sellerId : String) (status listingType : Option String) : String :=
  sellerId ++ "_" ++ orAll status ++ "_" ++ orAll listingType

def saveToCache (c : ItemsCache) (sellerId : String) (data : List JsValue)
    (status listingType : Option String) (now : Int) : ItemsCache :=
  mapSet c (getItemsCacheKey sellerId status listingType) ⟨data, now, sellerId⟩

/-- `getFromCache` with its 5-minute TTL (age strictly above the TTL is
expired and deleted). -/
def getFromCache (c : ItemsCache) (now : Int) (sellerId : String)
    (status listingType : Option String) : Option (List JsValue) × ItemsCache :=
  match mapGet c (getItemsCacheKey sellerId status listingType) with
  | none => (none, c)
  | some cached =>
    if 5 * 60 * 1000 < now - cached.timestamp then
      (none, mapErase c (getItemsCacheKey sellerId status listingType))
    else (some cached.data, c)

/-- `clearItemsCache(sellerId?)`: the source dispatches on the truthiness
of `sellerId` (`if (sellerId)`), so a missing argument *and* the falsy
empty string both take the clear-all branch. -/
def clearItemsCache : ItemsCache → Option String → ItemsCache
  | c, some sid => if sid = "" then [] else c.filter (fun kv => !(kv.2.sellerId == sid))
  | _, none => []

/-- C9 counterexample: `clearItemsCache` called with the empty-string
seller id takes the clear-all branch and deletes an entry recorded for
seller `"A"`, although `"A"` differs from the given seller id. -/
theorem clearItemsCache_empty_sid_counterexample :
    clearItemsCache [("A_all_all", (⟨[], 0, "A"⟩ : ItemsCacheEntry))] (some "") = []
    ∧ ("A" : String) ≠ ""
    ∧ ¬ (("A_all_all", (⟨[], 0, "A"⟩ : ItemsCacheEntry))
        ∈ clearItemsCache [("A_all_all", (⟨[], 0, "A"⟩ : ItemsCacheEntry))] (some "")) := by
  refine ⟨rfl, by decide, by decide⟩

/-- C9 (amended): every entry saved under `sellerId_status_listingType`
records that seller id in its value; for every non-empty seller id,
`clearItemsCache sid` removes exactly the entries recording that seller
and keeps every other entry; `clearItemsCache` with no argument, or with
a falsy seller id such as the empty string, empties the whole map. -/
theorem itemsCache_frame_spec :
    (∀ (c : ItemsCache) (sid : String) (data : List JsValue)
        (st lt : Option String) (now : Int),
      mapGet (saveToCache c sid data st lt now) (getItemsCacheKey sid st lt)
        = some ⟨data, now, sid⟩)
    ∧ (∀ (c : ItemsCache) (sid : String) (kv : String × ItemsCacheEntry), sid ≠ "" →
      (kv ∈ clearItemsCache c (some sid) ↔ kv ∈ c ∧ kv.2.sellerId ≠ sid))
    ∧ (∀ c : ItemsCache, clearItemsCache c (some "") = [])
    ∧ (∀ c : ItemsCache, clearItemsCache c none = []) := by
  refine ⟨?_, ?_, ?_, ?_⟩
  · intro c sid data st lt now
    exact mapGet_set_self c (getItemsCacheKey sid st lt) ⟨data, now, sid⟩
  · intro c sid kv hsid
    simp only [clearItemsCache]
    rw [if_neg hsid]
    simp [List.mem_filter]
  · intro c
    simp only [clearItemsCache]
    rw [if_pos trivial]
  · intro c
    rfl

/-- Witness for C9 (amended): clearing seller `"A"` from a two-seller
cache keeps seller `"B"`'s entry. -/
theorem itemsCache_frame_spec_witness :
    (("B_all_all", (⟨[], 0, "B"⟩ : ItemsCacheEntry))
      ∈ clearItemsCache
          [("A_all_all", (⟨[], 0, "A"⟩ : ItemsCacheEntry)),
           ("B_all_all", (⟨[], 0, "B"⟩ : ItemsCacheEntry))] (some "A")) :=
  (itemsCache_frame_spec.2.1
    [("A_all_all", (⟨[], 0, "A"⟩ : ItemsCacheEntry)),
     ("B_all_all", (⟨[], 0, "B"⟩ : ItemsCacheEntry))]
    "A" ("B_all_all", (⟨[], 0, "B"⟩ : ItemsCacheEntry)) (by decide)).mpr
    ⟨by decide, by decide⟩

/-! ## Route-boundary error mapping (orders.ts, shipments.ts, items.ts)

A thrown error is modelled by its observable fields; a catch block is a
function to the HTTP status and the JSON body as a key/value list. -/

structure JsError where
  message : String
  responseStatus : Option Nat
  responseData : Option String
  responseDataMessage : Option String
deriving DecidableEq

/-- `error.message?.includes('No token available')`. -/
def includesNoToken (msg : String) : Bool :=
  containsSub "No token available".toList msg.toList

/-- `error.response?.data?.message || error.message`. -/
def upstreamOrOwnMessage (e : JsError) : String :=
  match e.responseDataMessage with
  | some m => if m = "" then e.message else m
  | none => e.message

/-- `error.response?.data || error.message` (items listing route). -/
def upstreamDataOrMessage (e : JsError) : String :=
  match e.responseData with
  | some d => if d = "" then e.message else d
  | none => e.message

/-- GET `/api/orders` catch block. -/
def ordersCatch (e : JsError) : Nat × List (String × String) :=
  if includesNoToken e.message then
    (401, [("error", "Not authorized"),
           ("message", "Please authorize the app first by visiting /auth")])
  else
    (500, [("error", "Failed to fetch orders"), ("message", upstreamOrOwnMessage e)])

/-- GET `/api/shipments/:id` catch block. -/
def shipmentsCatch (e : JsError) (id : String) : Nat × List (String × String) :=
  if includesNoToken e.message then
    (401, [("error", "Not authorized"),
           ("message", "Please authorize the app first by visiting /auth")])
  else if e.responseStatus = some 404 then
    (404, [("error", "Shipment not found"),
           ("message", "Shipment with ID " ++ id ++ " not found")])
  else
    (500, [("error", "Failed to fetch shipment"), ("message", upstreamOrOwnMessage e)])

/-- GET `/api/items` (listing) catch block. -/
def itemsListCatch (e : JsError) : Nat × List (String × String) :=
  (500, [("error", "Failed to fetch items"), ("details", upstreamDataOrMessage e)])

/-- C5 counterexample: a missing-token failure in the items listing route
is answered with status 500 (not 401) and a body whose fields are `error`
and `details` — there is no `message` field. -/
theorem itemsListCatch_counterexample :
    itemsListCatch ⟨"No token available. Please authorize the app first.", none, none, none⟩
      = (500, [("error", "Failed to fetch items"),
               ("details", "No token available. Please authorize the app first.")])
    ∧ (itemsListCatch
        ⟨"No token available. Please authorize the app first.", none, none, none⟩).1 ≠ 401
    ∧ ((itemsListCatch
        ⟨"No token available. Please authorize the app first.", none, none, none⟩).2.map
          (fun kv => kv.1)) = ["error", "details"]
    ∧ includesNoToken "No token available. Please authorize the app first." = true := by
  refine ⟨rfl, by decide, rfl, by decide⟩

/-- C5 (amended): failures are caught at each route boundary; the orders
and shipment routes answer 401 with an `error`/`message` body on a
missing-token error, the shipment route maps upstream 404 to 404, both
answer 500 with `error`/`message` otherwise; the items listing route
answers 500 with an `error`/`details` body for every failure, and no
route maps upstream validation failures to 400. -/
theorem routeCatch_spec :
    ∀ (e : JsError) (id : String),
      (includesNoToken e.message = true →
        ordersCatch e = (401, [("error", "Not authorized"),
          ("message", "Please authorize the app first by visiting /auth")])
        ∧ shipmentsCatch e id = (401, [("error", "Not authorized"),
          ("message", "Please authorize the app first by visiting /auth")]))
      ∧ (includesNoToken e.message = false →
        (ordersCatch e).1 = 500
        ∧ ((ordersCatch e).2.map (fun kv => kv.1)) = ["error", "message"]
        ∧ (e.responseStatus = some 404 → (shipmentsCatch e id).1 = 404)
        ∧ (e.responseStatus ≠ some 404 → (shipmentsCatch e id).1 = 500)
        ∧ ((shipmentsCatch e id).2.map (fun kv => kv.1)) = ["error", "message"])
      ∧ (itemsListCatch e).1 = 500
      ∧ ((itemsListCatch e).2.map (fun kv => kv.1)) = ["error", "details"] := by
  intro e id
  refine ⟨?_, ?_, rfl, rfl⟩
  · intro h
    exact ⟨by unfold ordersCatch; rw [if_pos h],
           by unfold shipmentsCatch; rw [if_pos h]⟩
  · intro h
    have hn : ¬ includesNoToken e.message = true := by rw [h]; exact Bool.false_ne_true
    refine ⟨?_, ?_, ?_, ?_, ?_⟩
    · unfold ordersCatch; rw [if_neg hn]
    · unfold ordersCatch; rw [if_neg hn]; rfl
    · intro h404
      unfold shipmentsCatch; rw [if_neg hn, if_pos h404]
    · intro h404
      unfold shipmentsCatch; rw [if_neg hn, if_neg h404]
    · unfold shipmentsCatch
      rw [if_neg hn]
      by_cases h404 : e.responseStatus = some 404
      · rw [if_pos h404]; rfl
      · rw [if_neg h404]; rfl

/-- Witness for C5 (amended): an upstream-404 error without the token
marker makes the shipment route answer 404 and the items route 500. -/
theorem routeCatch_spec_witness :
    includesNoToken "Request failed with status code 404" = false
    ∧ (shipmentsCatch ⟨"Request failed with status code 404", some 404, none, none⟩ "123").1
      = 404
    ∧ (itemsListCatch ⟨"Request failed with status code 404", some 404, none, none⟩).1
      = 500 :=
  ⟨by decide,
   ((routeCatch_spec ⟨"Request failed with status code 404", some 404, none, none⟩
      "123").2.1 (by decide)).2.2.1 rfl,
   (routeCatch_spec ⟨"Request failed with status code 404", some 404, none, none⟩
      "123").2.2.1⟩

/-! ## GET `/api/items/visits` (items.ts)

The upstream visit lookup for one id is `String → Option (Option Int)`:
`none` when the request throws, `some none` when the response carries no
count for the id, `some (some n)` for a count `n`. -/

/-- `idsParam.split(',')` keeping empty pieces. -/
def splitCommaAux : List Char → List Char → List (List Char)
  | [], cur => [cur.reverse]
  | c :: cs, cur =>
    if c = ',' then cur.reverse :: splitCommaAux cs []
    else splitCommaAux cs (c :: cur)

/-- The whitespace set stripped by JS `trim`: space, TAB/LF/VT/FF/CR
(codes 9..13), NBSP (160), Ogham space (5760), the Unicode space range
8192..8202, LS (8232), PS (8233), NNBSP (8239), MMSP (8287), ideographic
space (12288) and the BOM (65279). -/
def isWsChar (c : Char) : Bool :=
  c == ' ' || (decide (9 ≤ c.toNat) && decide (c.toNat ≤ 13))
    || c.toNat == 160 || c.toNat == 5760
    || (decide (8192 ≤ c.toNat) && decide (c.toNat ≤ 8202))
    || c.toNat == 8232 || c.toNat == 8233 || c.toNat == 8239 || c.toNat == 8287
    || c.toNat == 12288 || c.toNat == 65279

def trimChars (cs : List Char) : List Char :=
  ((cs.dropWhile isWsChar).reverse.dropWhile isWsChar).reverse

/-- `idsParam.split(',').map(id => id.trim()).filter(id => id.length > 0)`. -/
def parseIds (idsParam : String) : List String :=
  ((splitCommaAux idsParam.toList []).map (fun cs => String.mk (trimChars cs))).filter
    (fun id => decide (0 < id.length))

/-- `visitsData[itemId] = visitCount !== undefined ? visitCount : 0`,
with a thrown request also recorded as 0. -/
def visitFor (upstream : String → Option (Option Int)) (id : String) : Int :=
  match upstream id with
  | none => 0
  | some none => 0
  | some (some n) => n

/-- The `visitsData` object assembled by the per-id lookups. -/
def visitsData (upstream : String → Option (Option Int)) (ids : List String) :
    List (String × Int) :=
  ids.foldl (fun acc id => mapSet acc id (visitFor upstream id)) []

inductive VisitsOutcome where
  | badRequest (errMsg : String) (calls : List String)
  | serverError (errMsg : String) (calls : List String)
  | ok (body : List (String × Int)) (calls : List String)
deriving DecidableEq

/-- The route handler: result plus the list of ids for which an upstream
visit lookup is issued.  `token` is the outcome of `mlAuth.getToken()`,
which runs after the three 400 validations: `none` (the call throws, as
in the not-yet-authorized state) lands in the outer catch, which answers
500 with `{error: 'Failed to fetch visit counts', details}`. -/
def visitsRoute : Option String → Option String → (String → Option (Option Int)) →
    VisitsOutcome
  | none, _, _ => .badRequest "Missing required parameter: ids" []
  | some p, token, upstream =>
    if p = "" then .badRequest "Missing required parameter: ids" []
    else if (parseIds p).length = 0 then .badRequest "No valid item IDs provided" []
    else if 100 < (parseIds p).length then
      .badRequest "Too many IDs. Maximum 100 items per request." []
    else
      match token with
      | none => .serverError "Failed to fetch visit counts" []
      | some _ => .ok (visitsData upstream (parseIds p)) (parseIds p)

theorem visitsData_get (upstream : String → Option (Option Int)) :
    ∀ (ids : List String) (acc : List (String × Int)) (k : String),
      mapGet (ids.foldl (fun a id => mapSet a id (visitFor upstream id)) acc) k
        = if k ∈ ids then some (visitFor upstream k) else mapGet acc k := by
  intro ids
  induction ids with
  | nil => intro acc k; simp
  | cons i is ih =>
    intro acc k
    rw [List.foldl_cons, ih]
    by_cases hmem : k ∈ is
    · simp [hmem]
    · by_cases hik : k = i
      · subst hik
        simp [hmem, mapGet_set_self]
      · have : k ∉ (i :: is) := by
          intro hc
          cases hc with
          | head => exact hik rfl
          | tail _ hm => exact hmem hm
        simp [hmem, this, hik, mapGet_set_ne acc i k _ hik]

/-- C10 counterexample: `ids=MLM1` parses to one valid id, yet with the
token fetch throwing (the not-yet-authorized state) the route answers
500 `Failed to fetch visit counts`, not the per-id JSON object. -/
theorem visitsRoute_missing_token_counterexample :
    parseIds "MLM1" = ["MLM1"]
    ∧ visitsRoute (some "MLM1") none (fun _ => some (some 42))
      = .serverError "Failed to fetch visit counts" []
    ∧ visitsRoute (some "MLM1") none (fun _ => some (some 42))
      ≠ .ok (visitsData (fun _ => some (some 42)) (parseIds "MLM1")) (parseIds "MLM1") := by
  refine ⟨by decide, by decide, by decide⟩

/-- C10 (amended): a request whose ids parameter parses to 1..100 ids and
whose token fetch succeeds is answered with one numeric entry per
requested id (0 when the upstream lookup fails or carries no count) and
nothing else; when the token fetch throws, the route answers a 500
`error`/`details` envelope with no visit lookup issued; a missing
parameter, an id list that parses empty, or more than 100 ids is rejected
with a 400-style error before the token fetch and before any visit
lookup. -/
theorem visitsRoute_spec :
    ∀ (idsParam token : Option String) (upstream : String → Option (Option Int)),
      (∀ p t, idsParam = some p → token = some t → p ≠ "" →
        1 ≤ (parseIds p).length → (parseIds p).length ≤ 100 →
        visitsRoute idsParam token upstream
          = .ok (visitsData upstream (parseIds p)) (parseIds p)
        ∧ (∀ id ∈ parseIds p,
            mapGet (visitsData upstream (parseIds p)) id = some (visitFor upstream id))
        ∧ (∀ k, k ∉ parseIds p → mapGet (visitsData upstream (parseIds p)) k = none)
        ∧ (∀ id, upstream id = none ∨ upstream id = some none → visitFor upstream id = 0))
      ∧ (∀ p, idsParam = some p → token = none → p ≠ "" →
        1 ≤ (parseIds p).length → (parseIds p).length ≤ 100 →
        visitsRoute idsParam token upstream
          = .serverError "Failed to fetch visit counts" [])
      ∧ ((idsParam = none ∨ idsParam = some ""
          ∨ (∃ p, idsParam = some p ∧ ((parseIds p).length = 0 ∨ 100 < (parseIds p).length))) →
        ∃ m, visitsRoute idsParam token upstream = .badRequest m []) := by
  intro idsParam token upstream
  refine ⟨?_, ?_, ?_⟩
  · intro p t hp htok hne h1 h100
    subst hp
    subst htok
    refine ⟨?_, ?_, ?_, ?_⟩
    · simp only [visitsRoute]
      rw [if_neg hne, if_neg (by omega), if_neg (by omega)]
    · intro id hid
      unfold visitsData
      rw [visitsData_get upstream (parseIds p) [] id, if_pos hid]
    · intro k hk
      unfold visitsData
      rw [visitsData_get upstream (parseIds p) [] k, if_neg hk]
      rfl
    · intro id hu
      cases hu with
      | inl h => unfold visitFor; rw [h]
      | inr h => unfold visitFor; rw [h]
  · intro p hp htok hne h1 h100
    subst hp
    subst htok
    simp only [visitsRoute]
    rw [if_neg hne, if_neg (by omega), if_neg (by omega)]
  · intro hbad
    cases hbad with
    | inl h => exact ⟨"Missing required parameter: ids", by rw [h]; rfl⟩
    | inr h =>
      cases h with
      | inl h => exact ⟨"Missing required parameter: ids", by rw [h]; rfl⟩
      | inr h =>
        obtain ⟨p, hp, hlen⟩ := h
        subst hp
        by_cases hne : p = ""
        · exact ⟨"Missing required parameter: ids", by simp only [visitsRoute]; rw [if_pos hne]⟩
        · cases hlen with
          | inl h0 =>
            exact ⟨"No valid item IDs provided", by simp only [visitsRoute]; rw [if_neg hne, if_pos h0]⟩
          | inr hg =>
            exact ⟨"Too many IDs. Maximum 100 items per request.",
              by simp only [visitsRoute]; rw [if_neg hne, if_neg (by omega), if_pos hg]⟩

/-- Witness for C10 (amended): `ids = " MLM1 ,MLM2,,"` parses to two ids;
with a token present and an upstream that knows a count only for `MLM1`,
the response maps `MLM1` to 42 and `MLM2` to 0, and covers nothing else. -/
theorem visitsRoute_spec_witness :
    parseIds " MLM1 ,MLM2,," = ["MLM1", "MLM2"]
    ∧ visitsRoute (some " MLM1 ,MLM2,,") (some "tok")
        (fun id => if id = "MLM1" then some (some 42) else none)
      = .ok [("MLM1", 42), ("MLM2", 0)] ["MLM1", "MLM2"]
    ∧ mapGet [(("MLM1" : String), (42 : Int)), ("MLM2", 0)] "MLM1" = some 42
    ∧ mapGet [(("MLM1" : String), (42 : Int)), ("MLM2", 0)] "MLM2" = some 0
    ∧ mapGet [(("MLM1" : String), (42 : Int)), ("MLM2", 0)] "MLM3" = none := by
  have h := (visitsRoute_spec (some " MLM1 ,MLM2,,") (some "tok")
    (fun id => if id = "MLM1" then some (some 42) else none)).1
    " MLM1 ,MLM2,," "tok" rfl rfl (by decide) (by decide) (by decide)
  exact ⟨by decide, h.1.trans (by decide), by decide, by decide, by decide⟩

end MlDash
